import Mathlib

set_option maxRecDepth 8000

/- Verification development for the pdf_summarizer extraction pipeline
   (extract_info.py and utils/gemini_service.py).  The Python functions are
   shallowly embedded as executable Lean functions over character lists.
   ASCII input is assumed wherever Python string methods are Unicode aware. -/

/-- Python whitespace for str.split, str.strip and the regex class \s
    (ASCII range: space, tab, newline, carriage return, vertical tab,
    form feed). -/
def isPySpace (c : Char) : Bool :=
  c = ' ' || c = '\t' || c = '\n' || c = '\r' || c = Char.ofNat 11 || c = Char.ofNat 12

/-- Python regex word character (\w and the \b boundary), ASCII range. -/
def isPyWord (c : Char) : Bool := c.isAlphanum || c = '_'

/-- Python str.upper on ASCII text. -/
def pyUpperL (s : List Char) : List Char := s.map Char.toUpper

/-- Python str.upper on ASCII text, String wrapper. -/
def pyUpper (s : String) : String := String.mk (pyUpperL s.data)

/-- Python str.strip(): remove leading and trailing whitespace. -/
def pyStripL (s : List Char) : List Char :=
  ((s.dropWhile isPySpace).reverse.dropWhile isPySpace).reverse

/-- Python str.strip(), String wrapper. -/
def pyStrip (s : String) : String := String.mk (pyStripL s.data)

/-- Helper for pySplitL: accumulates the current word (reversed). -/
def pySplitAux : List Char → List Char → List (List Char)
  | [], acc => if acc = [] then [] else [acc.reverse]
  | c :: rest, acc =>
    if isPySpace c then
      if acc = [] then pySplitAux rest [] else acc.reverse :: pySplitAux rest []
    else pySplitAux rest (c :: acc)

/-- Python str.split() with no argument: split on whitespace runs and drop
    empty pieces. -/
def pySplitL (s : List Char) : List (List Char) := pySplitAux s []

/-- Python str.split(), String wrapper. -/
def pySplit (s : String) : List String := (pySplitL s.data).map String.mk

/-- Join a list of pieces with a single separator character
    (Python sep.join for a one-character separator). -/
def joinSep (sep : Char) : List (List Char) → List Char
  | [] => []
  | w :: ws =>
    match ws with
    | [] => w
    | _ :: _ => w ++ sep :: joinSep sep ws

/-- Python str.rstrip(chars): drop trailing characters belonging to cs. -/
def rstripChars (cs : List Char) (s : List Char) : List Char :=
  (s.reverse.dropWhile (fun c => cs.contains c)).reverse

/-- Python dict insertion: update the value of an existing key in place,
    otherwise append the binding (insertion order preserved). -/
def dictInsert : List (String × String) → String → String → List (String × String)
  | [], k, v => [(k, v)]
  | (a, b) :: rest, k, v =>
    if a = k then (k, v) :: rest else (a, b) :: dictInsert rest k v

/-- Python dict lookup: the value of the unique binding of the key, if
    any. -/
def dictLookup : List (String × String) → String → Option String
  | [], _ => none
  | (a, b) :: rest, k => if a = k then some b else dictLookup rest k

/-- Entries of the dict literal in get_nickname_dict (extract_info.py,
    lines 16-33), in source order.  The literal writes the key "RICHARD"
    twice: once with value "RICK" and later with value "DICK". -/
def nicknamePairs : List (String × String) :=
  [("BILL", "WILLIAM"), ("WILLIAM", "BILL"),
   ("GREG", "GREGORY"), ("GREGORY", "GREG"),
   ("BOB", "ROBERT"), ("ROBERT", "BOB"),
   ("DAVE", "DAVID"), ("DAVID", "DAVE"),
   ("MIKE", "MICHAEL"), ("MICHAEL", "MIKE"),
   ("JIM", "JAMES"), ("JAMES", "JIM"),
   ("TOM", "THOMAS"), ("THOMAS", "TOM"),
   ("RICK", "RICHARD"), ("RICHARD", "RICK"),
   ("DICK", "RICHARD"), ("RICHARD", "DICK"),
   ("STEVE", "STEPHEN"), ("STEPHEN", "STEVE"),
   ("CHRIS", "CHRISTOPHER"), ("CHRISTOPHER", "CHRIS"),
   ("DAN", "DANIEL"), ("DANIEL", "DAN"),
   ("MATT", "MATTHEW"), ("MATTHEW", "MATT"),
   ("KEN", "KENNETH"), ("KENNETH", "KEN"),
   ("DREW", "ANDREW"), ("ANDREW", "DREW")]

/-- get_nickname_dict from extract_info.py: the dict literal is built by
    inserting the entries in source order, a later duplicate key overwriting
    the earlier value, exactly as Python evaluates a dict display. -/
def getNicknameDict : List (String × String) :=
  nicknamePairs.foldl (fun d p => dictInsert d p.1 p.2) []

/-- Test of a stripped line against the anchored pattern
    ^===\s*Page\s*\d+\s*===$ used by remove_page_markers. -/
def isPageMarkerL (line : List Char) : Bool :=
  let t := pyStripL line
  if ("===".data).isPrefixOf t then
    let r1 := (t.drop 3).dropWhile isPySpace
    if ("Page".data).isPrefixOf r1 then
      let r2 := (r1.drop 4).dropWhile isPySpace
      let ds := r2.takeWhile Char.isDigit
      if ds.isEmpty then false
      else decide (((r2.drop ds.length).dropWhile isPySpace) = "===".data)
    else false
  else false

/-- Marker test on a line given as a String. -/
def isPageMarkerLine (line : String) : Bool := isPageMarkerL line.data

/-- Python text.split for the single-character separator newline: every
    newline separates, empty pieces are kept. -/
def splitNl : List Char → List (List Char)
  | [] => [[]]
  | c :: rest =>
    if c = '\n' then [] :: splitNl rest
    else
      match splitNl rest with
      | [] => [[c]]
      | l :: ls => (c :: l) :: ls

/-- Membership test in the lines_to_remove set built by remove_page_markers:
    for each marker index n the indices n-1 (when n > 0), n, n+1 and n+2
    (when in range) are removed. -/
def removeWindow (markerIdx : List Nat) (total i : Nat) : Bool :=
  markerIdx.any (fun n =>
    (decide (0 < n) && decide (i = n - 1)) || decide (i = n) ||
    (decide (n + 1 < total) && decide (i = n + 1)) ||
    (decide (n + 2 < total) && decide (i = n + 2)))

/-- Line-level body of remove_page_markers: collect marker indices, build the
    removal set, keep the remaining lines in order. -/
def removePageMarkersCore (lines : List (List Char)) : List (List Char) :=
  let markerIdx := (List.range lines.length).filter (fun i => isPageMarkerL (lines.getD i []))
  ((List.range lines.length).filter
      (fun i => !removeWindow markerIdx lines.length i)).map
    (fun i => lines.getD i [])

/-- remove_page_markers from extract_info.py (lines 95-131): empty text is
    returned unchanged; otherwise the text is split on newlines, the fixed
    window around every page-marker line is dropped, and the remaining lines
    are rejoined with newlines. -/
def removePageMarkers (text : String) : String :=
  if text = "" then text
  else String.mk (joinSep '\n' (removePageMarkersCore (splitNl text.data)))

/-- Claim-side description of the page-marker cleanup: line i survives iff
    there is no marker line at an index n with i among n-1 (when it exists),
    n, n+1, n+2. -/
def claimKeptLine (lines : List (List Char)) (i : Nat) : Bool :=
  ! ((List.range lines.length).any (fun n =>
      isPageMarkerL (lines.getD n []) &&
      ((decide (0 < n) && decide (i = n - 1)) || decide (i = n) ||
       decide (i = n + 1) || decide (i = n + 2))))

/-- A horizontal rule line as produced by the OCR stage: a nonempty run of
    equality signs. -/
def isRuleLine (s : String) : Bool :=
  !s.data.isEmpty && s.data.all (fun c => c = '=')

/-- Length of the common run of two character lists read in parallel. -/
def commonRunL : List Char → List Char → Nat
  | c :: xs, d :: ys => if c = d then 1 + commonRunL xs ys else 0
  | _, _ => 0

/-- difflib SequenceMatcher.find_longest_match (no junk, autojunk inactive on
    the short inputs used here) on a[alo:ahi] and b[blo:bhi]: among the
    maximal matching blocks (i, j, k), the one with the smallest i, then the
    smallest j.  Returned as (i, j, k), (alo, blo, 0) when nothing matches. -/
def findLongestMatch (a b : List Char) (alo ahi blo bhi : Nat) : Nat × Nat × Nat :=
  (List.range' alo (ahi - alo)).foldl (fun best i =>
    (List.range' blo (bhi - blo)).foldl (fun best j =>
      let k := commonRunL ((a.take ahi).drop i) ((b.take bhi).drop j)
      if k > best.2.2 then (i, j, k) else best) best)
    (alo, blo, 0)

/-- Total number of matched elements over the recursive matching-block
    decomposition of difflib SequenceMatcher.  The fuel argument only drives
    termination: each recursive level splits the ranges around a block of
    size at least one, so the sum of the range lengths drops by at least two
    per level while the fuel drops by one; the initial fuel
    (the full range sum) is therefore never exhausted. -/
def matchingTotalAux (a b : List Char) : Nat → Nat → Nat → Nat → Nat → Nat
  | 0, _, _, _, _ => 0
  | fuel + 1, alo, ahi, blo, bhi =>
    let r := findLongestMatch a b alo ahi blo bhi
    if r.2.2 = 0 then 0
    else
      matchingTotalAux a b fuel alo r.1 blo r.2.1 + r.2.2 +
        matchingTotalAux a b fuel (r.1 + r.2.2) ahi (r.2.1 + r.2.2) bhi

/-- Number M of matched characters between two character lists, as computed
    by difflib SequenceMatcher.get_matching_blocks. -/
def matchingTotal (a b : List Char) : Nat :=
  matchingTotalAux a b (a.length + b.length) 0 a.length 0 b.length

/-- Threshold comparison similarity(a, b) >= thN/thD for the similarity
    helper of extract_info.py (lines 35-36): SequenceMatcher ratio
    2*M/(len(a)+len(b)) on the uppercased strings, compared exactly as a
    rational (the float comparison of the source agrees on the short inputs
    involved, whose ratios are far from the representation error of the
    thresholds). -/
def similarityGE (a b : String) (thN thD : Nat) : Bool :=
  let x := pyUpperL a.data
  let y := pyUpperL b.data
  decide (thN * (x.length + y.length) ≤ thD * (2 * matchingTotal x y))

/-- First character of a word, for the first-letter pre-filter of
    find_fuzzy_phrase_match (words produced by str.split are nonempty). -/
def firstChar (s : String) : Option Char := s.data.head?

/-- Inner reconstruction loop of find_fuzzy_phrase_match: the first pair of
    consecutive actual words whose uppercase forms equal the matched
    uppercase pair, joined by one space. -/
def reconstructPair (w0 w1 : String) : List String → Option String
  | a0 :: a1 :: rest =>
    if pyUpper a0 = w0 ∧ pyUpper a1 = w1 then some (a0 ++ " " ++ a1)
    else reconstructPair w0 w1 (a1 :: rest)
  | _ => none

/-- Outer loop of the two-word branch of find_fuzzy_phrase_match over
    consecutive uppercase word pairs. -/
def fuzzyTwoLoop (tw0 tw1 : String) (thN thD : Nat) (actualWords : List String) :
    List String → Option String
  | w0 :: w1 :: rest =>
    if firstChar w0 = firstChar tw0 ∧ firstChar w1 = firstChar tw1 then
      if similarityGE w0 tw0 thN thD ∧ similarityGE w1 tw1 thN thD then
        match reconstructPair w0 w1 actualWords with
        | some r => some r
        | none => fuzzyTwoLoop tw0 tw1 thN thD actualWords (w1 :: rest)
      else fuzzyTwoLoop tw0 tw1 thN thD actualWords (w1 :: rest)
    else fuzzyTwoLoop tw0 tw1 thN thD actualWords (w1 :: rest)
  | _ => none

/-- Single-word fallback loop of find_fuzzy_phrase_match. -/
def fuzzyOneLoop (tw0 : String) (thN thD : Nat) : List String → Option String
  | [] => none
  | w :: rest =>
    if similarityGE (pyUpper w) tw0 thN thD then some w
    else fuzzyOneLoop tw0 thN thD rest

/-- find_fuzzy_phrase_match from extract_info.py (lines 61-93), with the
    threshold given as the exact rational thN/thD. -/
def findFuzzyPhraseMatch (text targetPhrase : String) (thN thD : Nat) : Option String :=
  let targetWords := pySplit (pyUpper targetPhrase)
  let words := pySplit (pyUpper text)
  if targetWords.length = 2 then
    fuzzyTwoLoop (targetWords.getD 0 "") (targetWords.getD 1 "") thN thD (pySplit text) words
  else if targetWords.length = 1 then
    fuzzyOneLoop (targetWords.getD 0 "") thN thD (pySplit text)
  else none

/-- Python str.find: index of the first occurrence of sub in s, -1 when
    absent. -/
def pyFind (s sub : String) : Int :=
  match (List.range (s.data.length + 1)).find?
      (fun i => decide ((s.data.drop i).take sub.data.length = sub.data)) with
  | some i => Int.ofNat i
  | none => -1

/-- Python slice s[i:] with Python index semantics (a negative index counts
    from the end, clamped at zero). -/
def pySliceFrom (s : String) (i : Int) : String :=
  if 0 ≤ i then String.mk (s.data.drop i.toNat)
  else String.mk (s.data.drop (s.data.length - (-i).toNat))

/-- Python slice s[:i] with Python index semantics. -/
def pySliceTo (s : String) (i : Int) : String :=
  if 0 ≤ i then String.mk (s.data.take i.toNat)
  else String.mk (s.data.take (s.data.length - (-i).toNat))

/-- Header cleanup loop of extract_bio_info: try header + ":" then the bare
    header; on the first prefix hit drop it and strip the remainder. -/
def headerStripped (header content : String) : String :=
  if (header ++ ":").data.isPrefixOf content.data then
    pyStrip (String.mk (content.data.drop (header.data.length + 1)))
  else if header.data.isPrefixOf content.data then
    pyStrip (String.mk (content.data.drop header.data.length))
  else content

/-- Word-boundary test of the regex \b between positions p-1 and p of s:
    exactly one of the two neighbouring characters is a word character
    (out-of-range counts as non-word). -/
def boundaryAt (s : List Char) (p : Nat) : Bool :=
  (if p = 0 then false
   else match s.get? (p - 1) with
        | some c => isPyWord c
        | none => false) !=
  (match s.get? p with
   | some c => isPyWord c
   | none => false)

/-- Match of the escaped name with surrounding \b boundaries at position i
    of the bio text (the section-anchoring regex of extract_bio_info). -/
def nameMatchAt (s nm : List Char) (i : Nat) : Bool :=
  decide ((s.drop i).take nm.length = nm) && boundaryAt s i && boundaryAt s (i + nm.length)

/-- Lookahead (?=\n[A-Z]+,|\Z) of the section-anchoring regex at position k:
    end of text, or a newline followed by a nonempty run of uppercase
    letters and a comma. -/
def sectionBreakAt (s : List Char) (k : Nat) : Bool :=
  decide (k = s.length) ||
  (decide (s.get? k = some '\n') &&
    (let run := ((s.drop (k + 1)).takeWhile Char.isUpper).length
     decide (0 < run) && decide (s.get? (k + 1 + run) = some ',')))

/-- Section slice of the regex rf'\b{name}\b.*?(?=\n[A-Z]+,|\Z)' with
    re.DOTALL: anchored at the first word-boundary occurrence of the name,
    extended lazily to the first section break. -/
def personSection (bioContent bioName : String) : Option String :=
  let s := bioContent.data
  let nm := bioName.data
  match (List.range (s.length + 1)).find? (fun i => nameMatchAt s nm i) with
  | none => none
  | some i =>
    let start := i + nm.length
    let stop :=
      match (List.range' start (s.length + 1 - start)).find? (fun k => sectionBreakAt s k) with
      | some k => k
      | none => s.length
    some (String.mk ((s.drop i).take (stop - i)))

/-- Two-tier political-heading lookup of extract_bio_info: the two-word
    phrase "Political Career" at threshold 0.7, else the single word
    "Political" at threshold 0.8. -/
def politicalLookup (sec : String) : Option String :=
  match findFuzzyPhraseMatch sec "Political Career" 7 10 with
  | some m => some m
  | none => findFuzzyPhraseMatch sec "Political" 8 10

/-- Two-tier private-heading lookup of extract_bio_info. -/
def privateLookup (afterPolitical : String) : Option String :=
  match findFuzzyPhraseMatch afterPolitical "Private Career" 7 10 with
  | some m => some m
  | none => findFuzzyPhraseMatch afterPolitical "Private" 8 10

/-- extract_bio_info from extract_info.py (lines 133-201). -/
def extractBioInfo (bioContent bioName : String) : String × String :=
  match personSection bioContent bioName with
  | none => ("", "")
  | some personSec =>
    match politicalLookup personSec with
    | none => ("", "")
    | some politicalMatch =>
      let afterPolitical := pySliceFrom personSec (pyFind personSec politicalMatch)
      match privateLookup afterPolitical with
      | none =>
        (removePageMarkers (headerStripped politicalMatch afterPolitical), "")
      | some privateMatch =>
        let privateStart := pyFind afterPolitical privateMatch
        let politicalContent :=
          headerStripped politicalMatch (pySliceTo afterPolitical privateStart)
        let afterPrivate := pySliceFrom afterPolitical privateStart
        let privateContent :=
          match findFuzzyPhraseMatch afterPrivate "Address" 8 10 with
          | none => afterPrivate
          | some addressMatch => pySliceTo afterPrivate (pyFind afterPrivate addressMatch)
        let privateContent := headerStripped privateMatch privateContent
        (removePageMarkers (pyStrip politicalContent),
         removePageMarkers (pyStrip privateContent))

/-- Length of the whitespace run of s starting at position p. -/
def wsRunLen (s : List Char) (p : Nat) : Nat :=
  ((s.drop p).takeWhile isPySpace).length

/-- Length of the run of characters from the class [.,:] starting at p
    (the optional punctuation after the HON honorific). -/
def punctRunLen (s : List Char) (p : Nat) : Nat :=
  ((s.drop p).takeWhile (fun c => c = '.' || c = ',' || c = ':')).length

/-- Character class [A-Z\s\.-] of the capture group of the names-list
    pattern. -/
def isNameCaptureChar (c : Char) : Bool :=
  c.isUpper || isPySpace c || c = '.' || c = '-'

/-- Lookahead (?=\s+(?:Minister|Premier|Deputy|\n)) at position p: at least
    one whitespace character, then one of the title words after the maximal
    whitespace run, or a newline reachable after one or more whitespace
    characters (the backtracking options of the greedy \s+). -/
def titleLookahead (s : List Char) (p : Nat) : Bool :=
  let r := wsRunLen s p
  decide (0 < r) &&
    (("Minister".data).isPrefixOf (s.drop (p + r)) ||
     ("Premier".data).isPrefixOf (s.drop (p + r)) ||
     ("Deputy".data).isPrefixOf (s.drop (p + r)) ||
     ((s.drop (p + 1)).take (r - 1)).contains '\n')

/-- Lazy expansion of the capture [A-Z][A-Z\s\.-]+? of the names-list
    pattern: starting from one extension character, grow while the class
    admits the next character until the lookahead holds.  Returns the
    captured characters and the position after the match. -/
def captureNameAux (s : List Char) (q : Nat) : Nat → Nat → Option (List Char × Nat)
  | 0, _ => none
  | fuel + 1, t =>
    match s.get? (q + t) with
    | none => none
    | some c =>
      if isNameCaptureChar c then
        if titleLookahead s (q + t + 1) then some ((s.drop q).take (t + 1), q + t + 1)
        else captureNameAux s q fuel (t + 1)
      else none

/-- Capture of the names-list pattern at position q: an uppercase letter
    followed by the lazy extension. -/
def captureName (s : List Char) (q : Nat) : Option (List Char × Nat) :=
  match s.get? q with
  | some c => if c.isUpper then captureNameAux s q (s.length + 1) 1 else none
  | none => none

/-- Match of the full names-list pattern
    \b(?:HON[.,:]*\s+)?([A-Z][A-Z\s\.-]+?)(?=\s+(?:Minister|Premier|Deputy|\n))
    at position p: the greedy optional honorific prefix is attempted first;
    when it cannot be followed by a successful capture, the capture is
    attempted at p itself (backtracking inside the prefix cannot succeed
    because the capture class starts with an uppercase letter). -/
def matchHonName (s : List Char) (p : Nat) : Option (List Char × Nat) :=
  if boundaryAt s p then
    let withHon :=
      if ("HON".data).isPrefixOf (s.drop p) then
        let p2 := p + 3 + punctRunLen s (p + 3)
        let w := wsRunLen s p2
        if 0 < w then captureName s (p2 + w) else none
      else none
    match withHon with
    | some r => some r
    | none => captureName s p
  else none

/-- re.findall scan for the names-list pattern: try each position in order,
    resume after the end of each match. -/
def nameFindAllAux (s : List Char) : Nat → Nat → List (List Char)
  | 0, _ => []
  | fuel + 1, p =>
    if s.length < p then []
    else
      match matchHonName s p with
      | some (cap, e) => cap :: nameFindAllAux s fuel e
      | none => nameFindAllAux s fuel (p + 1)

/-- Match of \b\d{4}\b at position p. -/
def yearMatchAt (s : List Char) (p : Nat) : Bool :=
  boundaryAt s p &&
  (match s.get? p, s.get? (p + 1), s.get? (p + 2), s.get? (p + 3) with
   | some a, some b, some c, some d => a.isDigit && b.isDigit && c.isDigit && d.isDigit
   | _, _, _, _ => false) &&
  boundaryAt s (p + 4)

/-- re.finditer scan for \b\d{4}\b: end positions of the non-overlapping
    matches in order. -/
def yearEndsAux (s : List Char) : Nat → Nat → List Nat
  | 0, _ => []
  | fuel + 1, p =>
    if s.length ≤ p then []
    else if yearMatchAt s p then (p + 4) :: yearEndsAux s fuel (p + 4)
    else yearEndsAux s fuel (p + 1)

/-- extract_names_from_file from extract_info.py (lines 203-218), as a
    function of the file content: skip everything up to the end of the
    second 4-digit year token when there are at least two, scan with the
    names-list pattern, then whitespace-normalize each capture and strip its
    trailing periods. -/
def extractNamesFromText (content : String) : List String :=
  let s := content.data
  let yearEnds := yearEndsAux s (s.length + 1) 0
  let rest := if 2 ≤ yearEnds.length then s.drop (yearEnds.getD 1 0) else s
  let caps := nameFindAllAux rest (rest.length + 2) 0
  (caps.filter (fun m => !(pyStripL m).isEmpty)).map
    (fun m => String.mk (rstripChars ['.'] (joinSep ' ' (pySplitL (pyStripL m)))))

/-- Character class [A-Z\s,.-] of the capture group of the bio pattern. -/
def isBioCaptureChar (c : Char) : Bool :=
  c.isUpper || isPySpace c || c = ',' || c = '.' || c = '-'

/-- Lookahead (?=\s|,|\n) of the bio pattern: the next character is
    whitespace or a comma. -/
def bioLookahead (s : List Char) (p : Nat) : Bool :=
  match s.get? p with
  | some c => isPySpace c || c = ','
  | none => false

/-- Lazy expansion of the capture [A-Z][A-Z\s,.-]+? of the bio pattern. -/
def captureBioAux (s : List Char) (q : Nat) : Nat → Nat → Option (List Char × Nat)
  | 0, _ => none
  | fuel + 1, t =>
    match s.get? (q + t) with
    | none => none
    | some c =>
      if isBioCaptureChar c then
        if bioLookahead s (q + t + 1) then some ((s.drop q).take (t + 1), q + t + 1)
        else captureBioAux s q fuel (t + 1)
      else none

/-- Capture of the bio pattern at position q. -/
def captureBioGroup (s : List Char) (q : Nat) : Option (List Char × Nat) :=
  match s.get? q with
  | some c => if c.isUpper then captureBioAux s q (s.length + 1) 1 else none
  | none => none

/-- Match of the bio pattern (?:HON\s+)?([A-Z][A-Z\s,.-]+?)(?=\s|,|\n) at
    position p (no word-boundary anchor in this pattern). -/
def matchBioName (s : List Char) (p : Nat) : Option (List Char × Nat) :=
  let withHon :=
    if ("HON".data).isPrefixOf (s.drop p) then
      let w := wsRunLen s (p + 3)
      if 0 < w then captureBioGroup s (p + 3 + w) else none
    else none
  match withHon with
  | some r => some r
  | none => captureBioGroup s p

/-- re.findall scan for the bio pattern. -/
def bioFindAllAux (s : List Char) : Nat → Nat → List (List Char)
  | 0, _ => []
  | fuel + 1, p =>
    if s.length < p then []
    else
      match matchBioName s p with
      | some (cap, e) => cap :: bioFindAllAux s fuel e
      | none => bioFindAllAux s fuel (p + 1)

/-- Bio-name harvesting step of process_names_files (extract_info.py,
    lines 278-281): findall with the bio pattern, keep captures whose
    stripped form has more than two characters, whitespace-normalize and
    strip trailing periods and commas. -/
def extractBioNames (bioContent : String) : List String :=
  let s := bioContent.data
  let caps := bioFindAllAux s (s.length + 2) 0
  (caps.filter (fun m => decide (2 < (pyStripL m).length))).map
    (fun m => String.mk (rstripChars ['.', ','] (joinSep ' ' (pySplitL (pyStripL m)))))

/-- Direct-match rule of match_names: some token of the names-list entry
    occurs among the bio name's tokens. -/
def directHit (nameParts bioParts : List String) : Bool :=
  nameParts.any (fun part => bioParts.contains part)

/-- Nickname rule of match_names: some token of the names-list entry is a
    nickname-table key whose alternate occurs among the bio name's tokens. -/
def nicknameHit (nick : String → Option String) (nameParts bioParts : List String) : Bool :=
  nameParts.any (fun part =>
    match nick part with
    | some alt => bioParts.contains alt
    | none => false)

/-- Inner loop of match_names for one bio name: scan the names list in
    order; a direct match binds the entry and breaks the scan, a nickname
    match binds the entry and the scan continues (the break in the source
    only leaves the loop over the entry's own tokens). -/
def matchOneBioName (nick : String → Option String) (bioParts : List String) (bioName : String)
    (acc : List (String × String)) : List String → List (String × String)
  | [] => acc
  | name :: rest =>
    if directHit (pySplit name) bioParts then dictInsert acc name bioName
    else if nicknameHit nick (pySplit name) bioParts then
      matchOneBioName nick bioParts bioName (dictInsert acc name bioName) rest
    else matchOneBioName nick bioParts bioName acc rest

/-- match_names from extract_info.py (lines 38-59): fold the per-bio-name
    scan over the bio names in order, into a Python dict keyed by the
    names-list entries. -/
def matchNames (bioNames namesList : List String) (nick : String → Option String) :
    List (String × String) :=
  bioNames.foldl (fun acc bn => matchOneBioName nick (pySplit bn) bn acc namesList) []

/-- Claim-side predicate: the names-list entry name is assigned during the
    scan for a bio name with the given tokens, i.e. some occurrence of the
    entry is reached (no earlier entry direct-matched and broke the scan)
    and matches directly or by nickname. -/
def assignedInScan (nick : String → Option String) (bioParts : List String) (name : String) :
    List String → Bool
  | [] => false
  | n :: rest =>
    if directHit (pySplit n) bioParts then decide (n = name)
    else if nicknameHit nick (pySplit n) bioParts && decide (n = name) then true
    else assignedInScan nick bioParts name rest

/-- Environment of the external Gemini service: key file content (none when
    the file is absent), and the outcomes of the configure and generate
    calls, an Except error standing for a raised exception. -/
structure GeminiEnv where
  keyFile : Option String
  configure : String → Except String Unit
  generate : String → String → Except String String

/-- load_and_configure_api from utils/gemini_service.py: False when the key
    file is absent, when the stripped key is empty, or when configuring
    raises (caught by the surrounding try); True otherwise. -/
def loadAndConfigureApi (env : GeminiEnv) : Bool :=
  match env.keyFile with
  | none => false
  | some content =>
    let apiKey := pyStrip content
    if apiKey = "" then false
    else
      match env.configure apiKey with
      | Except.ok _ => true
      | Except.error _ => false

/-- get_gemini_response from utils/gemini_service.py (lines 33-54): a total
    function into String; every internal failure is converted into an
    error-message string by the try/except of the source. -/
def getGeminiResponse (env : GeminiEnv) (prompt : String)
    (modelName : String := "gemini-2.0-flash") : String :=
  if loadAndConfigureApi env = false then "Error: API configuration failed."
  else
    match env.generate modelName prompt with
    | Except.ok text => text
    | Except.error e => "An error occurred while generating the response: " ++ e

/-- ENABLE_CLEAN from extract_info.py (line 14). -/
def ENABLE_CLEAN : Bool := false

/-- First/last-name split of process_names_files (lines 256-266). -/
def pyFirstLast (name : String) : String × String :=
  let parts := pySplit (pyStrip name)
  if 2 ≤ parts.length then (parts.getD 0 "", parts.getLastD "")
  else if parts.length = 1 then (parts.getD 0 "", "")
  else ("", "")

/-- Career columns of one row (lines 288-305): empty for an unmatched
    entry, otherwise the extracted excerpts, passed through the external
    cleanup only when ENABLE_CLEAN is set. -/
def rowCareers (env : GeminiEnv) (promptBase bioContent : String)
    (nameMatches : List (String × String)) (name : String) : String × String :=
  match dictLookup nameMatches name with
  | none => ("", "")
  | some bn =>
    let pp := extractBioInfo bioContent bn
    let political :=
      if ENABLE_CLEAN then
        if pp.1 ≠ "" then getGeminiResponse env (promptBase ++ pp.1) else pp.1
      else pp.1
    let priv :=
      if ENABLE_CLEAN then
        if pp.2 ≠ "" then getGeminiResponse env (promptBase ++ pp.2) else pp.2
      else pp.2
    (political, priv)

/-- Per-file body of process_names_files (lines 248-319) as a function of
    the extracted names and the optional bio file content: none models the
    skip when no name was extracted, otherwise the rows of the emitted CSV
    in order (first name, last name, political career, private career). -/
def processOneNamesFile (env : GeminiEnv) (promptBase : String)
    (names : List String) (bioContent? : Option String) :
    Option (List (String × String × String × String)) :=
  if names.isEmpty then none
  else
    let firstLast := names.map pyFirstLast
    let careers :=
      match bioContent? with
      | none => names.map (fun _ => ("", ""))
      | some bioContent =>
        let bioNames := extractBioNames bioContent
        let nameMatches := matchNames bioNames names (dictLookup getNicknameDict)
        names.map (fun name => rowCareers env promptBase bioContent nameMatches name)
    some (List.zipWith (fun fl c => (fl.1, fl.2, c.1, c.2)) firstLast careers)

theorem mk_append (a b : String) : String.mk (a.data ++ b.data) = a ++ b := by
  cases a; cases b; rfl

theorem ruleLine_not_marker (s : String) (h : isRuleLine s = true) :
    isPageMarkerLine s = false := by
  unfold isRuleLine at h
  unfold isPageMarkerLine isPageMarkerL
  simp only [Bool.and_eq_true, Bool.not_eq_true', List.all_eq_true, decide_eq_true_eq] at h
  obtain ⟨hne, hall⟩ := h
  have hstrip : pyStripL s.data = s.data := by
    unfold pyStripL
    have h1 : s.data.dropWhile isPySpace = s.data := by
      cases hd : s.data with
      | nil => rfl
      | cons c cs =>
        have hc : c = '=' := hall c (by rw [hd]; exact List.mem_cons_self _ _)
        rw [List.dropWhile_cons]
        simp [hc, isPySpace]
    rw [h1]
    have h2 : s.data.reverse.dropWhile isPySpace = s.data.reverse := by
      cases hd : s.data.reverse with
      | nil => rfl
      | cons c cs =>
        have hc : c = '=' := by
          apply hall
          have : c ∈ s.data.reverse := by rw [hd]; exact List.mem_cons_self _ _
          exact List.mem_reverse.mp this
        rw [List.dropWhile_cons]
        simp [hc, isPySpace]
    rw [h2, List.reverse_reverse]
  rw [hstrip]
  by_cases hpre : ("===".data).isPrefixOf s.data
  · simp only [hpre, if_true]
    have hall3 : ∀ c ∈ s.data.drop 3, c = '=' := fun c hc => hall c (List.mem_of_mem_drop hc)
    have hdw : (s.data.drop 3).dropWhile isPySpace = s.data.drop 3 := by
      cases hd : s.data.drop 3 with
      | nil => rfl
      | cons c cs =>
        have hc : c = '=' := hall3 c (by rw [hd]; exact List.mem_cons_self _ _)
        rw [List.dropWhile_cons]
        simp [hc, isPySpace]
    rw [hdw]
    cases hd : s.data.drop 3 with
    | nil => rfl
    | cons c cs =>
      have hc : c = '=' := hall3 c (by rw [hd]; exact List.mem_cons_self _ _)
      subst hc
      simp [List.isPrefixOf]
  · simp [hpre]

/-- C7: remove_page_markers removes exactly the lines at offsets n-1, n, n+1,
    n+2 around each marker line at index n (those that exist), regardless of
    their content, and returns the remaining lines unchanged and in order. -/
theorem remove_page_markers_window_exact (text : String) :
    removePageMarkers text =
      String.mk (joinSep '\n'
        (((List.range (splitNl text.data).length).filter
            (claimKeptLine (splitNl text.data))).map
          (fun i => (splitNl text.data).getD i []))) := by
  by_cases h : text = ""
  · subst h; decide
  · unfold removePageMarkers
    rw [if_neg h]
    unfold removePageMarkersCore
    dsimp only
    congr 2
    congr 1
    apply List.filter_congr
    intro i hi
    have hilt : i < (splitNl text.data).length := List.mem_range.mp hi
    unfold claimKeptLine
    congr 1
    rw [Bool.eq_iff_iff]
    simp only [removeWindow, List.any_eq_true, List.mem_filter, List.mem_range,
      Bool.or_eq_true, Bool.and_eq_true, decide_eq_true_eq]
    constructor
    · rintro ⟨n, ⟨hn, hm⟩, hw⟩
      exact ⟨n, hn, hm, by omega⟩
    · rintro ⟨n, hn, hm, hw⟩
      exact ⟨n, ⟨hn, hm⟩, by omega⟩

/-- C8 counterexample: in a 7-line text with a rule line, the marker
    `=== Page 2 ===` and another rule line at lines 3-5 (1-based) and no other
    marker line, remove_page_markers keeps line 2: the result is lines 1, 2
    and 7, not lines 1 and 7 as the claim states. -/
theorem remove_page_markers_seven_line_counterexample :
    splitNl ("L1\nL2\n=====\n=== Page 2 ===\n=====\nL6\nL7" : String).data =
      ["L1".data, "L2".data, "=====".data, "=== Page 2 ===".data,
       "=====".data, "L6".data, "L7".data] ∧
    isRuleLine "=====" = true ∧
    isPageMarkerLine "=== Page 2 ===" = true ∧
    isPageMarkerLine "L1" = false ∧ isPageMarkerLine "L2" = false ∧
    isPageMarkerLine "L6" = false ∧ isPageMarkerLine "L7" = false ∧
    removePageMarkers "L1\nL2\n=====\n=== Page 2 ===\n=====\nL6\nL7" = "L1\nL2\nL7" ∧
    ¬ removePageMarkers "L1\nL2\n=====\n=== Page 2 ===\n=====\nL6\nL7" = "L1\nL7" := by
  refine ⟨by decide, by decide, by decide, by decide, by decide, by decide, by decide, ?_, ?_⟩
  · decide
  · decide

/-- C8 (amended): for every 7-line text whose lines 3-5 (1-based) are a rule
    line, the marker `=== Page 2 ===` and another rule line, with no other
    line matching the marker pattern, remove_page_markers drops lines 3
    through 6 (the line before the marker, the marker and the two lines after
    it) and returns lines 1, 2 and 7 verbatim. -/
theorem remove_page_markers_seven_line_amended
    (text l1 l2 l3 l5 l6 l7 : String)
    (hsplit : splitNl text.data =
      [l1.data, l2.data, l3.data, "=== Page 2 ===".data, l5.data, l6.data, l7.data])
    (hr3 : isRuleLine l3 = true) (hr5 : isRuleLine l5 = true)
    (hm1 : isPageMarkerLine l1 = false) (hm2 : isPageMarkerLine l2 = false)
    (hm6 : isPageMarkerLine l6 = false) (hm7 : isPageMarkerLine l7 = false) :
    removePageMarkers text = l1 ++ "\n" ++ l2 ++ "\n" ++ l7 := by
  have hm3 := ruleLine_not_marker l3 hr3
  have hm5 := ruleLine_not_marker l5 hr5
  unfold isPageMarkerLine at hm1 hm2 hm3 hm5 hm6 hm7
  have htne : text ≠ "" := by
    intro he
    rw [he] at hsplit
    rw [show splitNl ("" : String).data = [[]] from rfl] at hsplit
    have hlen := congrArg List.length hsplit
    simp at hlen
  unfold removePageMarkers
  rw [if_neg htne, hsplit]
  have hcore : removePageMarkersCore
      [l1.data, l2.data, l3.data, "=== Page 2 ===".data, l5.data, l6.data, l7.data] =
      [l1.data, l2.data, l7.data] := by
    unfold removePageMarkersCore
    have hmidx : (List.range
        ([l1.data, l2.data, l3.data, "=== Page 2 ===".data, l5.data, l6.data, l7.data]).length).filter
        (fun i => isPageMarkerL
          ([l1.data, l2.data, l3.data, "=== Page 2 ===".data, l5.data, l6.data, l7.data].getD i [])) =
        [3] := by
      have h7 : [l1.data, l2.data, l3.data, "=== Page 2 ===".data, l5.data, l6.data,
          l7.data].length = 7 := rfl
      rw [h7]
      have hr : List.range 7 = [0, 1, 2, 3, 4, 5, 6] := rfl
      rw [hr]
      have hmk : isPageMarkerL ("=== Page 2 ===".data) = true := by decide
      simp only [List.filter_cons, List.filter_nil, List.getD_cons_zero, List.getD_cons_succ,
        hm1, hm2, hm3, hm5, hm6, hm7, hmk]
      rfl
    dsimp only
    rw [hmidx]
    rfl
  rw [hcore]
  have hjoin : joinSep '\n' [l1.data, l2.data, l7.data] =
      l1.data ++ '\n' :: (l2.data ++ '\n' :: l7.data) := rfl
  rw [hjoin]
  apply String.ext
  simp [String.data_append]

/-- C2 counterexample: in the bio text "DOE, JANE Political\nCareer: xyz"
    the political heading is fuzzily located (returned as the single-spaced
    phrase "Political Career:") and no private heading is found anywhere
    after it, yet str.find cannot find that phrase in the section (the
    source text has a newline between the two words), so political_start is
    -1, after_political is the Python slice section[-1:] — the section's
    last character — and extract_bio_info returns ("z", ""), not the
    heading-to-end text ("xyz" after cleaning) that the claim promises. -/
theorem extract_bio_info_heading_not_substring_counterexample :
    personSection "DOE, JANE Political\nCareer: xyz" "DOE, JANE" =
      some "DOE, JANE Political\nCareer: xyz" ∧
    politicalLookup "DOE, JANE Political\nCareer: xyz" = some "Political Career:" ∧
    privateLookup "Political\nCareer: xyz" = none ∧
    pyFind "DOE, JANE Political\nCareer: xyz" "Political Career:" = -1 ∧
    extractBioInfo "DOE, JANE Political\nCareer: xyz" "DOE, JANE" = ("z", "") ∧
    ¬ extractBioInfo "DOE, JANE Political\nCareer: xyz" "DOE, JANE" = ("xyz", "") := by
  refine ⟨by decide, by decide, by decide, by decide, by decide, by decide⟩

/-- C2 (amended): if a political heading is fuzzily located in the person's
    section AND the returned heading text occurs literally in the section
    (first occurrence at index s), but the two-tier private lookup finds
    nothing after it, extract_bio_info returns the text from s to the end of
    the section — header label and trailing colon stripped from the start,
    page markers removed — as the political excerpt and the empty string as
    the private excerpt; and if no political heading is found at all, both
    excerpts are empty.  The literal-occurrence hypothesis is forced: the
    two-word fuzzy match rejoins the located heading words with a single
    space, so a heading split across other whitespace is located but not
    found by str.find, and the slice then degenerates (see the
    counterexample). -/
theorem extract_bio_info_missing_headings :
    (∀ (bioContent bioName sec pm : String) (s : Nat),
        personSection bioContent bioName = some sec →
        politicalLookup sec = some pm →
        pyFind sec pm = Int.ofNat s →
        privateLookup (String.mk (sec.data.drop s)) = none →
        extractBioInfo bioContent bioName =
          (removePageMarkers (headerStripped pm (String.mk (sec.data.drop s))), "")) ∧
    (∀ (bioContent bioName sec : String),
        personSection bioContent bioName = some sec →
        politicalLookup sec = none →
        extractBioInfo bioContent bioName = ("", "")) := by
  constructor
  · intro bioContent bioName sec pm s h1 h2 h3 h4
    have hslice : pySliceFrom sec (pyFind sec pm) = String.mk (sec.data.drop s) := by
      rw [h3]
      unfold pySliceFrom
      rw [if_pos (show (0 : Int) ≤ Int.ofNat s by exact Int.natCast_nonneg s)]
      rfl
    unfold extractBioInfo
    rw [h1]
    dsimp only
    rw [h2]
    dsimp only
    rw [hslice, h4]
  · intro bioContent bioName sec h1 h2
    unfold extractBioInfo
    rw [h1]
    dsimp only
    rw [h2]

/-- Witness for C2 at concrete inputs: a section with a political heading
    and no private heading, and a section with no political heading. -/
theorem extract_bio_info_missing_headings_witness :
    extractBioInfo "DOE, JANE Political Career: MP 1990 to 1995" "DOE, JANE" =
      ("MP 1990 to 1995", "") ∧
    extractBioInfo "DOE, JANE Summary: none" "DOE, JANE" = ("", "") := by
  constructor
  · exact extract_bio_info_missing_headings.1
      "DOE, JANE Political Career: MP 1990 to 1995" "DOE, JANE"
      "DOE, JANE Political Career: MP 1990 to 1995" "Political Career:" 10
      (by decide) (by decide) (by decide) (by decide)
  · exact extract_bio_info_missing_headings.2
      "DOE, JANE Summary: none" "DOE, JANE" "DOE, JANE Summary: none"
      (by decide) (by decide)

/-- C3 counterexample: with matched name "JOHN SMITH", the anchoring regex
    of extract_bio_info finds no word-boundary occurrence of the name in the
    snippet (which reads "SMITH, JOHN ..."), so the function returns two
    empty strings, not the claimed excerpts. -/
theorem extract_bio_info_smith_claim_false :
    extractBioInfo
      "SMITH, JOHN Political Career: Elected 1990. Private Career: Lawyer. Address: 1 Main St"
      "JOHN SMITH" = ("", "") ∧
    ¬ extractBioInfo
      "SMITH, JOHN Political Career: Elected 1990. Private Career: Lawyer. Address: 1 Main St"
      "JOHN SMITH" = ("Elected 1990.", "Lawyer.") := by
  exact ⟨by decide, by decide⟩

/-- C3 (amended): with the matched name given as it occurs in the bio text,
    "SMITH, JOHN", extract_bio_info returns political excerpt
    "Elected 1990." and private excerpt "Lawyer.", the Address text being
    excluded from both. -/
theorem extract_bio_info_smith_amended :
    extractBioInfo
      "SMITH, JOHN Political Career: Elected 1990. Private Career: Lawyer. Address: 1 Main St"
      "SMITH, JOHN" = ("Elected 1990.", "Lawyer.") := by
  decide

/-- C5 counterexample: the key "RICHARD" of the nickname dict maps to
    "DICK", not "RICK": the later duplicate entry RICHARD -> DICK of the
    literal overwrites the earlier RICHARD -> RICK, the reverse of the
    direction stated in the claim. -/
theorem get_nickname_dict_richard_counterexample :
    dictLookup getNicknameDict "RICHARD" = some "DICK" ∧
    ¬ dictLookup getNicknameDict "RICHARD" = some "RICK" := by
  exact ⟨by decide, by decide⟩

/-- C5 (amended): in get_nickname_dict the key "RICHARD" maps to "DICK"
    (the earlier RICHARD -> RICK entry being overwritten by the later
    duplicate-key entry), while "RICK" and "DICK" each map to "RICHARD". -/
theorem get_nickname_dict_richard_amended :
    dictLookup getNicknameDict "RICHARD" = some "DICK" ∧
    dictLookup getNicknameDict "RICK" = some "RICHARD" ∧
    dictLookup getNicknameDict "DICK" = some "RICHARD" := by
  exact ⟨by decide, by decide, by decide⟩

/-- C10: when the matched name has no word-boundary occurrence in the bio
    text, the section-anchoring regex fails and extract_bio_info returns a
    pair of empty strings instead of raising. -/
theorem extract_bio_info_missing_anchor (bioContent bioName : String)
    (h : ∀ i < bioContent.data.length + 1,
      nameMatchAt bioContent.data bioName.data i = false) :
    extractBioInfo bioContent bioName = ("", "") := by
  have hps : personSection bioContent bioName = none := by
    unfold personSection
    have hfind : (List.range (bioContent.data.length + 1)).find?
        (fun i => nameMatchAt bioContent.data bioName.data i) = none := by
      rw [List.find?_eq_none]
      intro i hi
      rw [h i (List.mem_range.mp hi)]
      exact Bool.false_ne_true
    dsimp only
    rw [hfind]
  unfold extractBioInfo
  rw [hps]

/-- Witness for C10: a name that occurs nowhere in the bio text. -/
theorem extract_bio_info_missing_anchor_witness :
    (∀ i < ("ADAMS, SAMUEL Political Career: clerk" : String).data.length + 1,
      nameMatchAt ("ADAMS, SAMUEL Political Career: clerk" : String).data
        ("JOHN QUINCY" : String).data i = false) ∧
    extractBioInfo "ADAMS, SAMUEL Political Career: clerk" "JOHN QUINCY" = ("", "") := by
  refine ⟨by decide, extract_bio_info_missing_anchor _ _ (by decide)⟩

/-- C6 counterexample: a names file containing
    "HON JOHN A. SMITH Minister of Finance" after the two header years
    yields the name "JOHN A. SMITH" — only trailing periods are stripped
    by rstrip, the interior period of the initial survives — so the claimed
    "JOHN A SMITH" is not in the output. -/
theorem extract_names_period_counterexample :
    pyFind "Report 1990 Session 1991\nHON JOHN A. SMITH Minister of Finance\n"
      "HON JOHN A. SMITH Minister of Finance" = Int.ofNat 25 ∧
    extractNamesFromText "Report 1990 Session 1991\nHON JOHN A. SMITH Minister of Finance\n" =
      ["JOHN A. SMITH"] ∧
    ¬ ("JOHN A SMITH" ∈ extractNamesFromText
        "Report 1990 Session 1991\nHON JOHN A. SMITH Minister of Finance\n") := by
  refine ⟨by decide, by decide, by decide⟩

/-- C6 (amended): the extracted name keeps the interior period:
    "JOHN A. SMITH" is in the output (whitespace collapsed, trailing periods
    stripped). -/
theorem extract_names_period_amended :
    "JOHN A. SMITH" ∈ extractNamesFromText
      "Report 1990 Session 1991\nHON JOHN A. SMITH Minister of Finance\n" := by
  decide

theorem dictLookup_insert (d : List (String × String)) (k v x : String) :
    dictLookup (dictInsert d k v) x = if x = k then some v else dictLookup d x := by
  induction d with
  | nil =>
    by_cases h : x = k
    · subst h; simp [dictInsert, dictLookup]
    · have hkx : ¬ k = x := fun he => h he.symm
      simp [dictInsert, dictLookup, h, hkx]
  | cons p rest ih =>
    obtain ⟨a, b⟩ := p
    by_cases hak : a = k
    · subst hak
      by_cases hx : x = a
      · subst hx; simp [dictInsert, dictLookup]
      · have hax : ¬ a = x := fun he => hx he.symm
        simp [dictInsert, dictLookup, hx, hax]
    · by_cases hx : x = a
      · subst hx
        simp [dictInsert, dictLookup, hak]
      · have hax : ¬ a = x := fun he => hx he.symm
        simp only [dictInsert, if_neg hak]
        simp only [dictLookup, if_neg hax]
        exact ih

theorem lookup_matchOneBioName (nick : String → Option String) (bioParts : List String)
    (bn : String) (names : List String) (acc : List (String × String)) (name : String) :
    dictLookup (matchOneBioName nick bioParts bn acc names) name =
      if assignedInScan nick bioParts name names then some bn else dictLookup acc name := by
  induction names generalizing acc with
  | nil => simp [matchOneBioName, assignedInScan]
  | cons n rest ih =>
    cases hd : directHit (pySplit n) bioParts with
    | true =>
      by_cases he : name = n
      · subst he
        simp [matchOneBioName, assignedInScan, hd, dictLookup_insert]
      · have hne : ¬ n = name := fun hc => he hc.symm
        simp [matchOneBioName, assignedInScan, hd, dictLookup_insert, he, hne]
    | false =>
      cases hn : nicknameHit nick (pySplit n) bioParts with
      | true =>
        by_cases he : name = n
        · subst he
          simp [matchOneBioName, assignedInScan, hd, hn, ih, dictLookup_insert]
        · have hne : ¬ n = name := fun hc => he hc.symm
          simp [matchOneBioName, assignedInScan, hd, hn, ih, dictLookup_insert, he, hne]
      | false =>
        simp [matchOneBioName, assignedInScan, hd, hn, ih]

theorem lookup_matchNames_aux (nick : String → Option String) (namesList : List String)
    (name : String) (bioNames : List String) :
    ∀ acc,
      dictLookup (bioNames.foldl (fun a b => matchOneBioName nick (pySplit b) b a namesList) acc)
          name =
        match bioNames.reverse.find?
            (fun bn => assignedInScan nick (pySplit bn) name namesList) with
        | some bn => some bn
        | none => dictLookup acc name := by
  induction bioNames with
  | nil => intro acc; simp
  | cons b rest ih =>
    intro acc
    rw [List.foldl_cons, ih]
    rw [List.reverse_cons, List.find?_append]
    cases hfind : rest.reverse.find? (fun bn => assignedInScan nick (pySplit bn) name namesList) with
    | some bn => simp [Option.orElse]
    | none =>
      simp only [Option.orElse, Option.none_orElse]
      rw [lookup_matchOneBioName]
      by_cases hb : assignedInScan nick (pySplit b) name namesList
      · simp [List.find?, hb]
      · simp [List.find?, hb]

/-- C4 counterexample: names list ["ROBERT JONES"], bio names
    ["BOB JONES", "ROBERT SMITH"].  "BOB JONES" direct-matches the entry
    (shared token "JONES") and binds it first, but the later bio name
    "ROBERT SMITH" also direct-matches and overwrites the binding: the entry
    ends bound to the later bio name, contradicting the claim that a later
    bio name does not change an already-bound entry. -/
theorem match_names_rebinding_counterexample :
    directHit (pySplit "ROBERT JONES") (pySplit "BOB JONES") = true ∧
    dictLookup (matchNames ["BOB JONES", "ROBERT SMITH"] ["ROBERT JONES"]
      (dictLookup getNicknameDict)) "ROBERT JONES" = some "ROBERT SMITH" ∧
    ¬ dictLookup (matchNames ["BOB JONES", "ROBERT SMITH"] ["ROBERT JONES"]
      (dictLookup getNicknameDict)) "ROBERT JONES" = some "BOB JONES" := by
  refine ⟨by decide, by decide, by decide⟩

/-- C4 (amended): in match_names a names-list entry ends bound to the LAST
    bio name, in traversal order, for which it was assigned; during the scan
    for one bio name, entries are checked in list order, a direct hit binds
    and stops the scan, a nickname hit binds and the scan continues, and a
    later bio name that hits an already-bound entry overwrites the
    binding. -/
theorem match_names_last_write (bioNames namesList : List String)
    (nick : String → Option String) (name : String) :
    dictLookup (matchNames bioNames namesList nick) name =
      bioNames.reverse.find? (fun bn => assignedInScan nick (pySplit bn) name namesList) := by
  unfold matchNames
  rw [lookup_matchNames_aux]
  cases h : bioNames.reverse.find? (fun bn => assignedInScan nick (pySplit bn) name namesList) with
  | some bn => rfl
  | none => simp [dictLookup]

/-- C9: get_gemini_response is a total function into strings.  When the key
    file is absent or its stripped content is empty it returns the literal
    configuration-failure message; in general its result is either that
    message (configuration failure), the generated text, or an error string
    describing the exception raised during generation — never a thrown
    failure. -/
theorem gemini_response_error_string :
    (∀ (env : GeminiEnv) (prompt : String),
        (env.keyFile = none ∨ ∃ c, env.keyFile = some c ∧ pyStrip c = "") →
        getGeminiResponse env prompt = "Error: API configuration failed.") ∧
    (∀ (env : GeminiEnv) (prompt : String),
        (loadAndConfigureApi env = false ∧
          getGeminiResponse env prompt = "Error: API configuration failed.") ∨
        (∃ t, env.generate "gemini-2.0-flash" prompt = Except.ok t ∧
          getGeminiResponse env prompt = t) ∨
        (∃ e, env.generate "gemini-2.0-flash" prompt = Except.error e ∧
          getGeminiResponse env prompt =
            "An error occurred while generating the response: " ++ e)) := by
  constructor
  · intro env prompt h
    have hload : loadAndConfigureApi env = false := by
      rcases h with h | ⟨c, hc, hs⟩
      · simp [loadAndConfigureApi, h]
      · simp [loadAndConfigureApi, hc, hs]
    simp [getGeminiResponse, hload]
  · intro env prompt
    by_cases hload : loadAndConfigureApi env = false
    · exact Or.inl ⟨hload, by simp [getGeminiResponse, hload]⟩
    · cases hg : env.generate "gemini-2.0-flash" prompt with
      | ok t => exact Or.inr (Or.inl ⟨t, rfl, by simp [getGeminiResponse, hload, hg]⟩)
      | error e => exact Or.inr (Or.inr ⟨e, rfl, by simp [getGeminiResponse, hload, hg]⟩)

/-- Witness for C9: an environment with no key file degrades the call to the
    configuration-failure string. -/
theorem gemini_response_error_string_witness :
    getGeminiResponse
      ⟨none, fun _ => Except.ok (), fun _ _ => Except.ok "text"⟩ "hello" =
      "Error: API configuration failed." :=
  gemini_response_error_string.1 _ "hello" (Or.inl rfl)

/-- C1: whenever the per-file body of process_names_files produces a table
    (it skips the file only when no name was extracted), the table has
    exactly one row per extracted name, in extraction order — row i carries
    the first/last split of name i — and this holds whether or not a bio
    file is present; a name with no match keeps empty-string career cells,
    and no row is added or removed during matching. -/
theorem process_row_count_invariant
    (env : GeminiEnv) (promptBase : String) (names : List String)
    (bioContent? : Option String) (rows : List (String × String × String × String))
    (hproc : processOneNamesFile env promptBase names bioContent? = some rows) :
    rows.length = names.length ∧
    ∀ i, i < names.length →
      (rows.getD i ("", "", "", "")).1 = (pyFirstLast (names.getD i "")).1 ∧
      (rows.getD i ("", "", "", "")).2.1 = (pyFirstLast (names.getD i "")).2 ∧
      ((bioContent? = none ∨
        ∃ bioContent, bioContent? = some bioContent ∧
          dictLookup (matchNames (extractBioNames bioContent) names (dictLookup getNicknameDict))
            (names.getD i "") = none) →
        (rows.getD i ("", "", "", "")).2.2 = ("", "")) := by
  unfold processOneNamesFile at hproc
  by_cases hni : names.isEmpty
  · rw [if_pos hni] at hproc
    exact absurd hproc (by simp)
  · rw [if_neg hni] at hproc
    dsimp only at hproc
    rw [Option.some.injEq] at hproc
    subst hproc
    cases bioContent? with
    | none =>
      dsimp only
      constructor
      · simp
      · intro i hi
        have hlen : (List.zipWith (fun fl c => (fl.1, fl.2, c.1, c.2))
            (names.map pyFirstLast) (names.map fun _ => (("" : String), ("" : String)))).length =
            names.length := by
          simp
        rw [List.getD_eq_getElem _ _ (by omega), List.getD_eq_getElem _ _ hi]
        rw [List.getElem_zipWith, List.getElem_map, List.getElem_map]
        exact ⟨rfl, rfl, fun _ => rfl⟩
    | some bioContent =>
      dsimp only
      constructor
      · simp
      · intro i hi
        have hlen : (List.zipWith (fun fl c => (fl.1, fl.2, c.1, c.2))
            (names.map pyFirstLast)
            (names.map fun name => rowCareers env promptBase bioContent
              (matchNames (extractBioNames bioContent) names (dictLookup getNicknameDict))
              name)).length = names.length := by
          simp
        rw [List.getD_eq_getElem _ _ (by omega), List.getD_eq_getElem _ _ hi]
        rw [List.getElem_zipWith, List.getElem_map, List.getElem_map]
        refine ⟨rfl, rfl, fun hum => ?_⟩
        rcases hum with hnone | ⟨bc, hbc, hlook⟩
        · exact absurd hnone (by simp)
        · have hbceq := Option.some.inj hbc
          subst hbceq
          have hrc : rowCareers env promptBase bioContent
              (matchNames (extractBioNames bioContent) names (dictLookup getNicknameDict))
              (names.get ⟨i, hi⟩) = ("", "") := by
            unfold rowCareers
            rw [show names.get ⟨i, hi⟩ = names[i] from rfl, hlook]
          simp only [show names[i] = names.get ⟨i, hi⟩ from rfl, hrc]

/-- Witness for C1: a single extracted name and no bio file yield one row
    with the split name and empty careers. -/
theorem process_row_count_invariant_witness :
    [(("JOHN" : String), ("SMITH" : String), ("" : String), ("" : String))].length =
      ["JOHN SMITH"].length ∧
    (([(("JOHN" : String), ("SMITH" : String), ("" : String), ("" : String))]).getD 0
      ("", "", "", "")).2.2 = ("", "") := by
  have h := process_row_count_invariant
    ⟨none, fun _ => Except.ok (), fun _ _ => Except.error "down"⟩ ""
    ["JOHN SMITH"] none [("JOHN", "SMITH", "", "")] (by decide)
  exact ⟨h.1, (h.2 0 (by decide)).2.2 (Or.inl rfl)⟩

/-- Witness for the amended C8 statement at a concrete 7-line text. -/
theorem remove_page_markers_seven_line_witness :
    removePageMarkers "L1\nL2\n=====\n=== Page 2 ===\n=====\nL6\nL7" =
      "L1" ++ "\n" ++ "L2" ++ "\n" ++ "L7" :=
  remove_page_markers_seven_line_amended _ "L1" "L2" "=====" "=====" "L6" "L7"
    (by decide) (by decide) (by decide) (by decide) (by decide) (by decide) (by decide)
